import Mathlib

/-!
# sql-tmpl-data-export

A shallow embedding of `main.go`: the template helper functions
(`strDoubleQuoted`, `strJoin`, `byteJoin`, `byteToStr`, `strToByte`,
`base64enc`, `md5byte`, `sha1byte`, `sha256byte`) and the export driver `main`.

Go values are modelled as follows.

* A Go `string` is an immutable sequence of bytes (`GoString`); a `[]byte` is a
  list of bytes (`ByteSlice`).  Text is a string whose bytes are valid UTF-8;
  `GoString.ofText` embeds Lean text by UTF-8 encoding it.
* The standard-library functions the helpers call (`strings.ReplaceAll`,
  `strings.Join`, `bytes.Buffer`, `base64.StdEncoding`, `crypto/md5`,
  `crypto/sha1`, `crypto/sha256`) are modelled by executable definitions in the
  namespaces `strings`, `bytes`, `base64`, `md5`, `sha1`, `sha256`.
  A 32-bit or 64-bit unsigned integer is a natural number reduced modulo `2^32`
  or `2^64` where Go's arithmetic wraps.  A panic of a library function is the
  result `none`.
* The outcomes of the calls `main` makes to the outside world (files, database,
  template engine) are the fields of `World`; `main` maps a world to what the
  process wrote to standard output, what it logged, and its exit status.  The
  function `init` (flag parsing, the `-v` flag) runs before `main` and is not
  modelled; the loop counter `i` is a natural number.
-/

namespace SqlTmplExport

/-! ## Go strings and byte slices -/

/-- Go `[]byte`. -/
abbrev ByteSlice := List UInt8

/-- Go `string`: an immutable sequence of bytes, not necessarily valid UTF-8. -/
structure GoString where
  bytes : List UInt8
deriving DecidableEq, Repr

/-- UTF-8 encoding of a text. -/
def utf8 (s : String) : List UInt8 := s.toList.flatMap String.utf8EncodeChar

/-- The Go string holding the UTF-8 encoding of a text (a Go string literal). -/
def GoString.ofText (s : String) : GoString := ⟨utf8 s⟩

/-- The byte `"` (U+0022). -/
def dquote : UInt8 := 34

namespace strings

/-- Worker of `ReplaceAll`: scans the input left to right; `skip` is the number of
bytes of the current match that remain to be stepped over. -/
def replaceAllAux (old new : List UInt8) : Nat → List UInt8 → List UInt8
  | _, [] => []
  | skip + 1, _ :: cs => replaceAllAux old new skip cs
  | 0, c :: cs =>
    if old.isPrefixOf (c :: cs) then new ++ replaceAllAux old new (old.length - 1) cs
    else c :: replaceAllAux old new 0 cs

/-- Go `strings.ReplaceAll(s, old, new)` for a non-empty `old`: every
non-overlapping occurrence of `old`, found scanning from the left, is replaced by
`new`.  (With an empty `old` Go inserts `new` at rune boundaries; the program
never does that and it is not modelled.) -/
def ReplaceAll (s old new : GoString) : GoString :=
  ⟨replaceAllAux old.bytes new.bytes 0 s.bytes⟩

/-- Go `strings.Join(elems, sep)`. -/
def Join (elems : List GoString) (sep : GoString) : GoString :=
  match elems with
  | [] => ⟨[]⟩
  | [e] => e
  | e :: rest => ⟨e.bytes ++ rest.flatMap (fun s => sep.bytes ++ s.bytes)⟩

end strings

namespace bytes

/-- Go `bytes.Buffer`: the unread contents. -/
structure Buffer where
  buf : List UInt8

/-- Go `(*Buffer).Write(p)`: appends `p`. -/
def Buffer.Write (b : Buffer) (p : ByteSlice) : Buffer := ⟨b.buf ++ p⟩

/-- Go `(*Buffer).Bytes()`. -/
def Buffer.Bytes (b : Buffer) : ByteSlice := b.buf

end bytes

/-! ## Helper functions (`main.go`, lines 146-168) -/

/-- Source: `func strDoubleQuoted(s string) string`. -/
def strDoubleQuoted (s : GoString) : GoString :=
  strings.ReplaceAll s (GoString.ofText "\"") (GoString.ofText "\"\"")

/-- Source: `func strJoin(s ...string) string`. -/
def strJoin (s : List GoString) : GoString :=
  strings.Join s (GoString.ofText "")

/-- Source: `func byteJoin(b ...[]byte) []byte`. -/
def byteJoin (b : List ByteSlice) : ByteSlice :=
  (b.foldl (fun bs p => bs.Write p) (⟨[]⟩ : bytes.Buffer)).Bytes

/-- Source: `func byteToStr(b []byte) string`, the conversion `string(b)`. -/
def byteToStr (b : ByteSlice) : GoString := ⟨b⟩

/-- Source: `func strToByte(s string) []byte`, the conversion `[]byte(s)`. -/
def strToByte (s : GoString) : ByteSlice := s.bytes

/-! ## `encoding/base64` -/

namespace base64

/-- Go `encodeStd`, the standard alphabet of RFC 4648. -/
def encodeStd : List UInt8 :=
  utf8 "ABCDEFGHIJKLMNOPQRSTUVWXYZabcdefghijklmnopqrstuvwxyz0123456789+/"

/-- Go `StdPadding`, the byte `=`. -/
def StdPadding : UInt8 := 61

/-- The table lookup `enc.encode[i]` of `StdEncoding`. -/
def encode (i : Nat) : UInt8 := encodeStd.getD i 0

/-- Go `(*Encoding).Encode` of `StdEncoding`, as the list of bytes it stores in
`dst`: every three source bytes give four alphabet bytes, and a last block of one
or two bytes is padded with `=` to four. -/
def Encode : List UInt8 → List UInt8
  | a :: b :: c :: rest =>
    let val := (a.toNat <<< 16) ||| (b.toNat <<< 8) ||| c.toNat
    encode ((val >>> 18) &&& 0x3F) :: encode ((val >>> 12) &&& 0x3F)
      :: encode ((val >>> 6) &&& 0x3F) :: encode (val &&& 0x3F) :: Encode rest
  | [a, b] =>
    let val := (a.toNat <<< 16) ||| (b.toNat <<< 8)
    [encode ((val >>> 18) &&& 0x3F), encode ((val >>> 12) &&& 0x3F),
      encode ((val >>> 6) &&& 0x3F), StdPadding]
  | [a] =>
    let val := a.toNat <<< 16
    [encode ((val >>> 18) &&& 0x3F), encode ((val >>> 12) &&& 0x3F), StdPadding, StdPadding]
  | [] => []

/-- Go `StdEncoding.EncodeToString(src)`. -/
def EncodeToString (src : ByteSlice) : GoString := ⟨Encode src⟩

/-- The bytes of the standard alphabet: `A`-`Z`, `a`-`z`, `0`-`9`, `+`, `/`. -/
def isAlphabet (c : UInt8) : Bool :=
  (65 ≤ c && c ≤ 90) || (97 ≤ c && c ≤ 122) || (48 ≤ c && c ≤ 57) || c == 43 || c == 47

end base64

/-- Source: `func base64enc(b []byte) string`. -/
def base64enc (b : ByteSlice) : GoString := base64.EncodeToString b

/-! ## 32-bit words -/

/-- Addition of `uint32` values. -/
def add32 (a b : Nat) : Nat := (a + b) % 2 ^ 32

/-- Go `bits.RotateLeft32(x, k)` for `0 ≤ k < 32`. -/
def rotl32 (x k : Nat) : Nat := ((x <<< k) ||| (x >>> (32 - k))) % 2 ^ 32

/-- Go `^x` on a `uint32`. -/
def not32 (x : Nat) : Nat := x ^^^ 0xFFFFFFFF

/-- Go `binary.LittleEndian.Uint32` on the first four bytes of a list. -/
def leUint32 (p : List UInt8) : Nat :=
  (p.getD 0 0).toNat ||| ((p.getD 1 0).toNat <<< 8) ||| ((p.getD 2 0).toNat <<< 16)
    ||| ((p.getD 3 0).toNat <<< 24)

/-- Go `binary.BigEndian.Uint32` on the first four bytes of a list. -/
def beUint32 (p : List UInt8) : Nat :=
  (p.getD 3 0).toNat ||| ((p.getD 2 0).toNat <<< 8) ||| ((p.getD 1 0).toNat <<< 16)
    ||| ((p.getD 0 0).toNat <<< 24)

/-- The conversion `byte(v)`. -/
def byte (v : Nat) : UInt8 := UInt8.ofNat v

/-- Go `binary.LittleEndian.PutUint32`. -/
def lePutUint32 (v : Nat) : List UInt8 :=
  [byte v, byte (v >>> 8), byte (v >>> 16), byte (v >>> 24)]

/-- Go `binary.BigEndian.PutUint32`. -/
def bePutUint32 (v : Nat) : List UInt8 :=
  [byte (v >>> 24), byte (v >>> 16), byte (v >>> 8), byte v]

/-- Go `binary.LittleEndian.PutUint64`. -/
def lePutUint64 (v : Nat) : List UInt8 :=
  [byte v, byte (v >>> 8), byte (v >>> 16), byte (v >>> 24),
   byte (v >>> 32), byte (v >>> 40), byte (v >>> 48), byte (v >>> 56)]

/-- Go `binary.BigEndian.PutUint64`. -/
def bePutUint64 (v : Nat) : List UInt8 :=
  [byte (v >>> 56), byte (v >>> 48), byte (v >>> 40), byte (v >>> 32),
   byte (v >>> 24), byte (v >>> 16), byte (v >>> 8), byte v]

/-- The sixteen 32-bit words of a 64-byte block, read with `rd`. -/
def blockWords (rd : List UInt8 → Nat) (q : List UInt8) : List Nat :=
  (List.range 16).map (fun i => rd (q.drop (4 * i)))

/-! ## The `Write` method shared by the three digests -/

/-- The `digest` struct of `crypto/md5`, `crypto/sha1` and `crypto/sha256`: the
chaining state, the buffered bytes `x[:nx]` of an incomplete block, and the
number of bytes written so far as a `uint64`. -/
structure digest (σ : Type) where
  h : σ
  x : List UInt8
  len : Nat

/-- The block function applied to `p[:n]` for `n` a multiple of 64: the chaining
state is updated with each 64-byte block in turn. -/
def blockLoop {σ : Type} (block1 : σ → List UInt8 → σ) : Nat → σ → List UInt8 → σ
  | 0, h, _ => h
  | n + 1, h, p => blockLoop block1 n (block1 h (p.take 64)) (p.drop 64)

/-- Go `block(d, p)`. -/
def block {σ : Type} (block1 : σ → List UInt8 → σ) (h : σ) (p : List UInt8) : σ :=
  blockLoop block1 (p.length / 64) h p

/-- Go `(*digest).Write(p)`; the three packages have the same code. -/
def digest.Write {σ : Type} (block1 : σ → List UInt8 → σ) (d : digest σ) (p : List UInt8) :
    digest σ :=
  let d : digest σ := { d with len := (d.len + p.length) % 2 ^ 64 }
  let dp : digest σ × List UInt8 :=
    if d.x.length > 0 then
      let n := min (64 - d.x.length) p.length
      let x := d.x ++ p.take n
      if x.length = 64 then ({ d with h := block block1 d.h x, x := [] }, p.drop n)
      else ({ d with x := x }, p.drop n)
    else (d, p)
  let dp : digest σ × List UInt8 :=
    if dp.2.length ≥ 64 then
      let n := dp.2.length / 64 * 64
      ({ dp.1 with h := block block1 dp.1.h (dp.2.take n) }, dp.2.drop n)
    else dp
  if dp.2.length > 0 then { dp.1 with x := dp.2 } else dp.1

namespace md5

/-- The chaining state `s [4]uint32`. -/
structure State where
  a : Nat
  b : Nat
  c : Nat
  d : Nat

/-- The initial state `init0` .. `init3`. -/
def init : State := ⟨0x67452301, 0xEFCDAB89, 0x98BADCFE, 0x10325476⟩

/-- The constants added in the sixty-four steps, `floor(2^32 * abs(sin(i + 1)))`. -/
def K : List Nat := [
  0xd76aa478, 0xe8c7b756, 0x242070db, 0xc1bdceee,
  0xf57c0faf, 0x4787c62a, 0xa8304613, 0xfd469501,
  0x698098d8, 0x8b44f7af, 0xffff5bb1, 0x895cd7be,
  0x6b901122, 0xfd987193, 0xa679438e, 0x49b40821,
  0xf61e2562, 0xc040b340, 0x265e5a51, 0xe9b6c7aa,
  0xd62f105d, 0x02441453, 0xd8a1e681, 0xe7d3fbc8,
  0x21e1cde6, 0xc33707d6, 0xf4d50d87, 0x455a14ed,
  0xa9e3e905, 0xfcefa3f8, 0x676f02d9, 0x8d2a4c8a,
  0xfffa3942, 0x8771f681, 0x6d9d6122, 0xfde5380c,
  0xa4beea44, 0x4bdecfa9, 0xf6bb4b60, 0xbebfbc70,
  0x289b7ec6, 0xeaa127fa, 0xd4ef3085, 0x04881d05,
  0xd9d4d039, 0xe6db99e5, 0x1fa27cf8, 0xc4ac5665,
  0xf4292244, 0x432aff97, 0xab9423a7, 0xfc93a039,
  0x655b59c3, 0x8f0ccc92, 0xffeff47d, 0x85845dd1,
  0x6fa87e4f, 0xfe2ce6e0, 0xa3014314, 0x4e0811a1,
  0xf7537e82, 0xbd3af235, 0x2ad7d2bb, 0xeb86d391]

/-- The rotation amounts of the sixty-four steps. -/
def S : List Nat := [
  7, 12, 17, 22, 7, 12, 17, 22, 7, 12, 17, 22, 7, 12, 17, 22,
  5, 9, 14, 20, 5, 9, 14, 20, 5, 9, 14, 20, 5, 9, 14, 20,
  4, 11, 16, 23, 4, 11, 16, 23, 4, 11, 16, 23, 4, 11, 16, 23,
  6, 10, 15, 21, 6, 10, 15, 21, 6, 10, 15, 21, 6, 10, 15, 21]

/-- Step `i` of the sixty-four of `blockGeneric`, which the Go source writes out
one by one with the roles of `a`, `b`, `c`, `d` rotating. -/
def step (x : List Nat) (s : State) (i : Nat) : State :=
  let f :=
    if i < 16 then ((s.c ^^^ s.d) &&& s.b) ^^^ s.d
    else if i < 32 then ((s.b ^^^ s.c) &&& s.d) ^^^ s.c
    else if i < 48 then s.b ^^^ s.c ^^^ s.d
    else s.c ^^^ (s.b ||| not32 s.d)
  let g :=
    if i < 16 then i
    else if i < 32 then (5 * i + 1) % 16
    else if i < 48 then (3 * i + 5) % 16
    else (7 * i) % 16
  let t := add32 (add32 (add32 f s.a) (x.getD g 0)) (K.getD i 0)
  ⟨s.d, add32 s.b (rotl32 t (S.getD i 0)), s.b, s.c⟩

/-- Go `blockGeneric` on one 64-byte block. -/
def block1 (s : State) (q : List UInt8) : State :=
  let x := blockWords leUint32 q
  let r := (List.range 64).foldl (step x) s
  ⟨add32 r.a s.a, add32 r.b s.b, add32 r.c s.c, add32 r.d s.d⟩

/-- Go `md5.New()`. -/
def New : digest State := ⟨init, [], 0⟩

/-- Go `(*digest).checkSum()`; `none` is the panic `d.nx != 0`. -/
def checkSum (d : digest State) : Option (List UInt8) :=
  let pad := ((55 + 2 ^ 64 - d.len) % 2 ^ 64) % 64
  let tmp : List UInt8 :=
    ((0x80 : UInt8) :: List.replicate pad (0 : UInt8)) ++ lePutUint64 ((d.len <<< 3) % 2 ^ 64)
  let d := d.Write block1 tmp
  if d.x.length ≠ 0 then none
  else some (lePutUint32 d.h.a ++ lePutUint32 d.h.b ++ lePutUint32 d.h.c ++ lePutUint32 d.h.d)

/-- Go `(*digest).Sum(in)`. -/
def Sum (d : digest State) (b : List UInt8) : Option (List UInt8) :=
  (checkSum d).map (fun hash => b ++ hash)

end md5

/-- Source: `func md5byte(b []byte) []byte`; `none` is a panic of `Sum`. -/
def md5byte (b : ByteSlice) : Option ByteSlice :=
  let h := md5.New
  let h := h.Write md5.block1 b
  md5.Sum h []

namespace sha1

/-- The chaining state `h [5]uint32`. -/
structure State where
  h0 : Nat
  h1 : Nat
  h2 : Nat
  h3 : Nat
  h4 : Nat

/-- The initial state `init0` .. `init4`. -/
def init : State := ⟨0x67452301, 0xEFCDAB89, 0x98BADCFE, 0x10325476, 0xC3D2E1F0⟩

/-- The message schedule: `fuel` more words are appended to `w`, each the
rotation by one of `w[i-3] ^ w[i-8] ^ w[i-14] ^ w[i-16]`. -/
def schedule : Nat → List Nat → List Nat
  | 0, w => w
  | fuel + 1, w =>
    let i := w.length
    let tmp := w.getD (i - 3) 0 ^^^ w.getD (i - 8) 0 ^^^ w.getD (i - 14) 0 ^^^ w.getD (i - 16) 0
    schedule fuel (w ++ [rotl32 tmp 1])

/-- One of the eighty rounds. -/
def step (w : List Nat) (s : State) (i : Nat) : State :=
  let f :=
    if i < 20 then (s.h1 &&& s.h2) ||| (not32 s.h1 &&& s.h3)
    else if i < 40 then s.h1 ^^^ s.h2 ^^^ s.h3
    else if i < 60 then ((s.h1 ||| s.h2) &&& s.h3) ||| (s.h1 &&& s.h2)
    else s.h1 ^^^ s.h2 ^^^ s.h3
  let k :=
    if i < 20 then 0x5A827999
    else if i < 40 then 0x6ED9EBA1
    else if i < 60 then 0x8F1BBCDC
    else 0xCA62C1D6
  let t := add32 (add32 (add32 (add32 (rotl32 s.h0 5) f) s.h4) (w.getD i 0)) k
  ⟨t, s.h0, rotl32 s.h1 30, s.h2, s.h3⟩

/-- Go `blockGeneric` on one 64-byte block. -/
def block1 (s : State) (q : List UInt8) : State :=
  let w := schedule 64 (blockWords beUint32 q)
  let r := (List.range 80).foldl (step w) s
  ⟨add32 s.h0 r.h0, add32 s.h1 r.h1, add32 s.h2 r.h2, add32 s.h3 r.h3, add32 s.h4 r.h4⟩

/-- Go `sha1.New()`. -/
def New : digest State := ⟨init, [], 0⟩

/-- Go `(*digest).checkSum()`; `none` is the panic `d.nx != 0`. -/
def checkSum (d : digest State) : Option (List UInt8) :=
  let len := d.len
  let t := if len % 64 < 56 then 56 - len % 64 else 64 + 56 - len % 64
  let padlen : List UInt8 :=
    ((0x80 : UInt8) :: List.replicate (t - 1) (0 : UInt8)) ++ bePutUint64 ((len <<< 3) % 2 ^ 64)
  let d := d.Write block1 padlen
  if d.x.length ≠ 0 then none
  else some (bePutUint32 d.h.h0 ++ bePutUint32 d.h.h1 ++ bePutUint32 d.h.h2
    ++ bePutUint32 d.h.h3 ++ bePutUint32 d.h.h4)

/-- Go `(*digest).Sum(in)`. -/
def Sum (d : digest State) (b : List UInt8) : Option (List UInt8) :=
  (checkSum d).map (fun hash => b ++ hash)

end sha1

namespace sha256

/-- The chaining state `h [8]uint32`. -/
structure State where
  h0 : Nat
  h1 : Nat
  h2 : Nat
  h3 : Nat
  h4 : Nat
  h5 : Nat
  h6 : Nat
  h7 : Nat

/-- The initial state `init0` .. `init7`. -/
def init : State :=
  ⟨0x6A09E667, 0xBB67AE85, 0x3C6EF372, 0xA54FF53A, 0x510E527F, 0x9B05688C, 0x1F83D9AB,
    0x5BE0CD19⟩

/-- The round constants `_K`. -/
def K : List Nat := [
  0x428A2F98, 0x71374491, 0xB5C0FBCF, 0xE9B5DBA5,
  0x3956C25B, 0x59F111F1, 0x923F82A4, 0xAB1C5ED5,
  0xD807AA98, 0x12835B01, 0x243185BE, 0x550C7DC3,
  0x72BE5D74, 0x80DEB1FE, 0x9BDC06A7, 0xC19BF174,
  0xE49B69C1, 0xEFBE4786, 0x0FC19DC6, 0x240CA1CC,
  0x2DE92C6F, 0x4A7484AA, 0x5CB0A9DC, 0x76F988DA,
  0x983E5152, 0xA831C66D, 0xB00327C8, 0xBF597FC7,
  0xC6E00BF3, 0xD5A79147, 0x06CA6351, 0x14292967,
  0x27B70A85, 0x2E1B2138, 0x4D2C6DFC, 0x53380D13,
  0x650A7354, 0x766A0ABB, 0x81C2C92E, 0x92722C85,
  0xA2BFE8A1, 0xA81A664B, 0xC24B8B70, 0xC76C51A3,
  0xD192E819, 0xD6990624, 0xF40E3585, 0x106AA070,
  0x19A4C116, 0x1E376C08, 0x2748774C, 0x34B0BCB5,
  0x391C0CB3, 0x4ED8AA4A, 0x5B9CCA4F, 0x682E6FF3,
  0x748F82EE, 0x78A5636F, 0x84C87814, 0x8CC70208,
  0x90BEFFFA, 0xA4506CEB, 0xBEF9A3F7, 0xC67178F2]

/-- Rotation to the right, `bits.RotateLeft32(x, -k)`. -/
def rotr32 (x k : Nat) : Nat := rotl32 x (32 - k)

/-- The message schedule: `fuel` more words are appended to `w`. -/
def schedule : Nat → List Nat → List Nat
  | 0, w => w
  | fuel + 1, w =>
    let i := w.length
    let v1 := w.getD (i - 2) 0
    let t1 := rotr32 v1 17 ^^^ rotr32 v1 19 ^^^ (v1 >>> 10)
    let v2 := w.getD (i - 15) 0
    let t2 := rotr32 v2 7 ^^^ rotr32 v2 18 ^^^ (v2 >>> 3)
    schedule fuel (w ++ [add32 (add32 (add32 t1 (w.getD (i - 7) 0)) t2) (w.getD (i - 16) 0)])

/-- One of the sixty-four rounds. -/
def step (w : List Nat) (s : State) (i : Nat) : State :=
  let t1 := add32 (add32 (add32 (add32 s.h7
      (rotr32 s.h4 6 ^^^ rotr32 s.h4 11 ^^^ rotr32 s.h4 25))
      ((s.h4 &&& s.h5) ^^^ (not32 s.h4 &&& s.h6))) (K.getD i 0)) (w.getD i 0)
  let t2 := add32 (rotr32 s.h0 2 ^^^ rotr32 s.h0 13 ^^^ rotr32 s.h0 22)
      ((s.h0 &&& s.h1) ^^^ (s.h0 &&& s.h2) ^^^ (s.h1 &&& s.h2))
  ⟨add32 t1 t2, s.h0, s.h1, s.h2, add32 s.h3 t1, s.h4, s.h5, s.h6⟩

/-- Go `blockGeneric` on one 64-byte block. -/
def block1 (s : State) (q : List UInt8) : State :=
  let w := schedule 48 (blockWords beUint32 q)
  let r := (List.range 64).foldl (step w) s
  ⟨add32 s.h0 r.h0, add32 s.h1 r.h1, add32 s.h2 r.h2, add32 s.h3 r.h3,
    add32 s.h4 r.h4, add32 s.h5 r.h5, add32 s.h6 r.h6, add32 s.h7 r.h7⟩

/-- Go `sha256.New()`. -/
def New : digest State := ⟨init, [], 0⟩

/-- Go `(*digest).checkSum()` of a SHA-256 (not SHA-224) digest; `none` is the
panic `d.nx != 0`. -/
def checkSum (d : digest State) : Option (List UInt8) :=
  let len := d.len
  let t := if len % 64 < 56 then 56 - len % 64 else 64 + 56 - len % 64
  let padlen : List UInt8 :=
    ((0x80 : UInt8) :: List.replicate (t - 1) (0 : UInt8)) ++ bePutUint64 ((len <<< 3) % 2 ^ 64)
  let d := d.Write block1 padlen
  if d.x.length ≠ 0 then none
  else some (bePutUint32 d.h.h0 ++ bePutUint32 d.h.h1 ++ bePutUint32 d.h.h2
    ++ bePutUint32 d.h.h3 ++ bePutUint32 d.h.h4 ++ bePutUint32 d.h.h5
    ++ bePutUint32 d.h.h6 ++ bePutUint32 d.h.h7)

/-- Go `(*digest).Sum(in)`. -/
def Sum (d : digest State) (b : List UInt8) : Option (List UInt8) :=
  (checkSum d).map (fun hash => b ++ hash)

end sha256

/-- Source: `func sha1byte(b []byte) []byte`; `none` is a panic of `Sum`. -/
def sha1byte (b : ByteSlice) : Option ByteSlice :=
  let h := sha1.New
  let h := h.Write sha1.block1 b
  sha1.Sum h []

/-- Source: `func sha256byte(b []byte) []byte`; `none` is a panic of `Sum`. -/
def sha256byte (b : ByteSlice) : Option ByteSlice :=
  let h := sha256.New
  let h := h.Write sha256.block1 b
  sha256.Sum h []

/-! ## The export driver (`main.go`, lines 47-144) -/

/-- What one call `tmpl.Execute(out, data)` does: the bytes it wrote to `out`
before it returned, and the error it returned, if any.  The template engine
writes as it evaluates, so a failed execution may have written a part of its
output. -/
structure Rendered where
  written : List UInt8
  err : Option String
deriving DecidableEq, Repr

/-- A record for which `res.Next()` returned true: the contents of the map `r`
after `res.MapScan(r)` ran on the fresh empty map, and the error `MapScan`
returned, if any. -/
structure Fetched (ρ : Type) where
  scanned : ρ
  scanErr : Option String
deriving DecidableEq, Repr

/-- The lines `main` logs, one constructor for each format string. -/
inductive LogEntry where
  | openConfig (err : String)
  | openSqlFile (err : String)
  | readSqlFile (err : String)
  | closeSqlFile (err : String)
  | openHeaderTemplate (err : String)
  | openRowTemplate (err : String)
  | connectDb (err : String)
  | sqlRequest (err : String)
  | getColumns (err : String)
  | headerTemplate (err : String)
  | scanRow (i : Nat) (err : String)
  | rowTemplate (i : Nat) (err : String)
  | queryClose (err : String)
  | closeDatabase (err : String)
deriving DecidableEq, Repr

/-- A template execution: which template ran, and the value it was bound to. -/
inductive Exec (ρ : Type) where
  | header (columns : List String)
  | row (r : ρ)
deriving DecidableEq, Repr

/-- The `*sqlx.Rows` that `db.Queryx` returned without an error.

* `rows`: the driver handed back its rows.  `res.Columns()` returns the column
  names and no error; `res.Next()` is true for each of the records in turn and
  then false.
* `noRows`: the driver handed back no rows (`database/sql` holds a nil
  `driver.Rows`).  `res.Columns()` returns no column and the error `err`
  (`sql: no Rows available`); the first `res.Next()` panics on the nil rows, and
  so does the deferred `res.Close()`. -/
inductive Cursor (ρ : Type) where
  | rows (columns : List String) (records : List (Fetched ρ))
  | noRows (err : String)

/-- The first result of `res.Columns()`. -/
def Cursor.columns {ρ : Type} : Cursor ρ → List String
  | Cursor.rows columns _ => columns
  | Cursor.noRows _ => []

/-- The second result of `res.Columns()`. -/
def Cursor.columnsErr {ρ : Type} : Cursor ρ → Option String
  | Cursor.rows _ _ => none
  | Cursor.noRows err => some err

/-- The records for which `res.Next()` returns true. -/
def Cursor.records {ρ : Type} : Cursor ρ → List (Fetched ρ)
  | Cursor.rows _ records => records
  | Cursor.noRows _ => []

/-- The outcomes of the calls `main` makes, in the order it makes them.  An
`Option String` is the `error` a call returned (`none` for `nil`).  A compiled
template is the function from the bound value to what `Execute` does with it.
`cursor` is what `db.Queryx` returned when it returned no error. -/
structure World (ρ : Type) where
  decodeConfig : Option String
  openSqlFile : Option String
  readSqlFile : Option String
  closeSqlFile : Option String
  parseHeader : Except String (List String → Rendered)
  parseRow : Except String (ρ → Rendered)
  sqlxOpen : Option String
  queryx : Option String
  cursor : Cursor ρ
  resClose : Option String
  dbClose : Option String

/-- The column list `res.Columns()` returns. -/
def World.columns {ρ : Type} (w : World ρ) : List String := w.cursor.columns

/-- The error `res.Columns()` returns. -/
def World.columnsErr {ρ : Type} (w : World ρ) : Option String := w.cursor.columnsErr

/-- The records the cursor delivers. -/
def World.records {ρ : Type} (w : World ρ) : List (Fetched ρ) := w.cursor.records

/-- What a run of the process did: the bytes written to standard output, the
lines logged, the template executions in order, and the exit status: 0 when
`main` returns, 1 after `log.Fatalf`, 2 after a panic. -/
structure Run (ρ : Type) where
  out : List UInt8
  log : List LogEntry
  execs : List (Exec ρ)
  exit : Nat
deriving DecidableEq, Repr

/-- Go `log.Printf`. -/
def Run.Printf {ρ : Type} (s : Run ρ) (e : LogEntry) : Run ρ :=
  { s with log := s.log ++ [e] }

/-- Go `log.Fatalf`: logs, then `os.Exit(1)`; deferred calls do not run. -/
def Run.Fatalf {ρ : Type} (s : Run ρ) (e : LogEntry) : Run ρ :=
  { s with log := s.log ++ [e], exit := 1 }

/-- A panic that nothing recovers: the deferred calls run, then the process exits
with status 2. -/
def Run.Panic {ρ : Type} (s : Run ρ) : Run ρ :=
  { s with exit := 2 }

/-- The statement `if err != nil { log.Printf(msg, err) }`. -/
def Run.onErr {ρ : Type} (s : Run ρ) (err : Option String) (msg : String → LogEntry) : Run ρ :=
  match err with
  | some e => s.Printf (msg e)
  | none => s

/-- A call `tmpl.Execute(out, data)`: its bytes are appended to `out`. -/
def Run.Execute {ρ : Type} (s : Run ρ) (rd : Rendered) (call : Exec ρ) : Run ρ :=
  { s with out := s.out ++ rd.written, execs := s.execs ++ [call] }

/-- The loop `for res.Next() { ... }` of `main` (lines 129-143) over the records
the cursor delivers; `i` is the counter before the iteration. -/
def exportLoop {ρ : Type} (rTmpl : ρ → Rendered) : List (Fetched ρ) → Nat → Run ρ → Run ρ
  | [], _, s => s
  | record :: rest, i, s =>
    let i := i + 1
    let s := s.onErr record.scanErr (LogEntry.scanRow i)
    let rd := rTmpl record.scanned
    let s := (s.Execute rd (Exec.row record.scanned)).onErr rd.err (LogEntry.rowTemplate i)
    exportLoop rTmpl rest i s

/-- Source: `func main()`.  When the cursor holds no rows the first `res.Next()`
panics: the loop body never runs, the deferred `res.Close()` panics in its turn
and logs nothing, the deferred `db.Close()` runs, and the process exits with
status 2. -/
def main {ρ : Type} (w : World ρ) : Run ρ :=
  let s : Run ρ := ⟨[], [], [], 0⟩
  match w.decodeConfig with
  | some err => s.Fatalf (LogEntry.openConfig err)
  | none =>
  match w.openSqlFile with
  | some err => s.Fatalf (LogEntry.openSqlFile err)
  | none =>
  match w.readSqlFile with
  | some err => s.Fatalf (LogEntry.readSqlFile err)
  | none =>
  let s := s.onErr w.closeSqlFile LogEntry.closeSqlFile
  match w.parseHeader with
  | .error err => s.Fatalf (LogEntry.openHeaderTemplate err)
  | .ok hTmpl =>
  match w.parseRow with
  | .error err => s.Fatalf (LogEntry.openRowTemplate err)
  | .ok rTmpl =>
  match w.sqlxOpen with
  | some err => s.Fatalf (LogEntry.connectDb err)
  | none =>
  match w.queryx with
  | some err => s.Fatalf (LogEntry.sqlRequest err)
  | none =>
  let s := s.onErr w.cursor.columnsErr LogEntry.getColumns
  let rd := hTmpl w.cursor.columns
  let s := (s.Execute rd (Exec.header w.cursor.columns)).onErr rd.err LogEntry.headerTemplate
  match w.cursor with
  | Cursor.rows _ records =>
    let s := exportLoop rTmpl records 0 s
    let s := s.onErr w.resClose LogEntry.queryClose
    s.onErr w.dbClose LogEntry.closeDatabase
  | Cursor.noRows _ =>
    let s := s.Panic
    s.onErr w.dbClose LogEntry.closeDatabase

/-! ## A fragment of `text/template` for the examples -/

/-- A value a column can hold. -/
inductive Scalar where
  | text (s : String)
  | int (n : Int)
deriving DecidableEq, Repr

/-- The map `map[string]interface{}` a record is scanned into. -/
abbrev Row := List (String × Scalar)

/-- The nodes of a compiled template: literal text, the action that prints the
field or map entry `name` of the bound value, the action that prints `index . i`,
and the action that prints `strDoubleQuoted` of the entry `name`. -/
inductive Node where
  | text (s : String)
  | field (name : String)
  | index (i : Nat)
  | quoted (name : String)
deriving DecidableEq, Repr

/-- What `fmt.Fprint` prints for a value. -/
def Scalar.print : Scalar → String
  | .text s => s
  | .int n => toString n

/-- Execution continues after a node that wrote `b`. -/
def Rendered.after (b : List UInt8) (rd : Rendered) : Rendered :=
  { rd with written := b ++ rd.written }

/-- `Execute` of a template on a column list (a `[]string`). -/
def executeHeader : List Node → List String → Rendered
  | [], _ => ⟨[], none⟩
  | Node.text s :: rest, cols => (executeHeader rest cols).after (utf8 s)
  | Node.index i :: rest, cols =>
    match cols.get? i with
    | some c => (executeHeader rest cols).after (utf8 c)
    | none => ⟨[], some "error calling index: index out of range"⟩
  | Node.field _ :: _, _ => ⟨[], some "can't evaluate field in type []string"⟩
  | Node.quoted _ :: _, _ => ⟨[], some "can't evaluate field in type []string"⟩

/-- `Execute` of a template on a row map; a key the map does not hold prints as
`<no value>`, and `strDoubleQuoted` fails on an argument that is not a string. -/
def executeRow : List Node → Row → Rendered
  | [], _ => ⟨[], none⟩
  | Node.text s :: rest, r => (executeRow rest r).after (utf8 s)
  | Node.field name :: rest, r =>
    match r.lookup name with
    | some v => (executeRow rest r).after (utf8 v.print)
    | none => (executeRow rest r).after (utf8 "<no value>")
  | Node.index _ :: _, _ =>
    ⟨[], some "error calling index: value has type int; should be string"⟩
  | Node.quoted name :: rest, r =>
    match r.lookup name with
    | some (Scalar.text s) =>
      (executeRow rest r).after (strDoubleQuoted (GoString.ofText s)).bytes
    | some (Scalar.int _) => ⟨[], some "wrong type for value; expected string; got int64"⟩
    | none => ⟨[], some "invalid value; expected string"⟩

/-- A world in which every call before `res.Columns()` succeeds. -/
def exampleWorld (header row : List Node) (cursor : Cursor Row) : World Row :=
  { decodeConfig := none, openSqlFile := none, readSqlFile := none, closeSqlFile := none,
    parseHeader := .ok (executeHeader header), parseRow := .ok (executeRow row),
    sqlxOpen := none, queryx := none, cursor := cursor, resClose := none, dbClose := none }

/-- The header template of the end-to-end example: the first two column names,
separated by a comma, and a newline. -/
def specHeader : List Node := [Node.index 0, Node.text ",", Node.index 1, Node.text "\n"]

/-- The row template of the end-to-end example: the columns `id` and `name`,
separated by a comma, and a newline. -/
def specRow : List Node := [Node.field "id", Node.text ",", Node.field "name", Node.text "\n"]

/-- A row template that passes the column `name` to `strDoubleQuoted`. -/
def quotingRow : List Node :=
  [Node.field "id", Node.text ",", Node.quoted "name", Node.text "\n"]

/-- The end-to-end example: columns `id`, `name` and two records. -/
def specWorld : World Row :=
  exampleWorld specHeader specRow (Cursor.rows ["id", "name"]
    [⟨[("id", Scalar.int 1), ("name", Scalar.text "a")], none⟩,
     ⟨[("id", Scalar.int 2), ("name", Scalar.text "b")], none⟩])

/-- Three records, the second of which fails to scan and leaves the map empty. -/
def scanFailWorld : World Row :=
  exampleWorld specHeader specRow (Cursor.rows ["id", "name"]
    [⟨[("id", Scalar.int 1), ("name", Scalar.text "a")], none⟩,
     ⟨[], some "sql: Scan error on column index 0"⟩,
     ⟨[("id", Scalar.int 3), ("name", Scalar.text "c")], none⟩])

/-- The driver answers the query with no rows and no error: `res.Columns()` returns
no column and the error `sql: no Rows available`, and `res.Next()` panics.  The
header template is a fixed line. -/
def columnsFailWorld : World Row :=
  exampleWorld [Node.text "id,name\n"] specRow (Cursor.noRows "sql: no Rows available")

/-- The row template does not compile. -/
def rowParseFailWorld : World Row :=
  { specWorld with parseRow := .error "template: row.tmpl:1: function \"quote\" not defined" }

/-- Three records; in the second the column `name` holds an integer, so the call
of `strDoubleQuoted` fails after `2,` has been written. -/
def renderFailWorld : World Row :=
  exampleWorld specHeader quotingRow (Cursor.rows ["id", "name"]
    [⟨[("id", Scalar.int 1), ("name", Scalar.text "a")], none⟩,
     ⟨[("id", Scalar.int 2), ("name", Scalar.int 7)], none⟩,
     ⟨[("id", Scalar.int 3), ("name", Scalar.text "c\"d")], none⟩])

/-! ## Definitions used to state the properties -/

/-- Every call `main` makes before `res.Columns()` succeeds; `hTmpl` and `rTmpl`
are the two compiled templates. -/
def SetupOk {ρ : Type} (w : World ρ) (hTmpl : List String → Rendered) (rTmpl : ρ → Rendered) :
    Prop :=
  w.decodeConfig = none ∧ w.openSqlFile = none ∧ w.readSqlFile = none ∧
  w.parseHeader = .ok hTmpl ∧ w.parseRow = .ok rTmpl ∧ w.sqlxOpen = none ∧ w.queryx = none

/-- One of the calls that `main` answers with `log.Fatalf` fails. -/
def SetupFails {ρ : Type} (w : World ρ) : Prop :=
  w.decodeConfig ≠ none ∨ w.openSqlFile ≠ none ∨ w.readSqlFile ≠ none ∨
  (∃ err, w.parseHeader = .error err) ∨ (∃ err, w.parseRow = .error err) ∨
  w.sqlxOpen ≠ none ∨ w.queryx ≠ none

/-- The lines the iteration with counter `i` logs for a record. -/
def rowLog {ρ : Type} (rTmpl : ρ → Rendered) (i : Nat) (r : Fetched ρ) : List LogEntry :=
  (r.scanErr.map (LogEntry.scanRow i)).toList
    ++ ((rTmpl r.scanned).err.map (LogEntry.rowTemplate i)).toList

/-- The lines the export loop logs for a list of records, starting after `i`. -/
def loopLog {ρ : Type} (rTmpl : ρ → Rendered) : List (Fetched ρ) → Nat → List LogEntry
  | [], _ => []
  | r :: rest, i => rowLog rTmpl (i + 1) r ++ loopLog rTmpl rest (i + 1)

/-- What the row template writes for each record of a list, in order. -/
def rowsWritten {ρ : Type} (rTmpl : ρ → Rendered) (records : List (Fetched ρ)) : List UInt8 :=
  (records.map (fun r => (rTmpl r.scanned).written)).flatten

/-- Doubling, byte by byte. -/
def doubleByte (c : UInt8) : List UInt8 := if c = dquote then [dquote, dquote] else [c]

/-- The number of `=` bytes that end the encoding of `n` bytes. -/
def padCount (n : Nat) : Nat := (3 - n % 3) % 3

/-! ## Base 64 as RFC 4648 defines it -/

namespace rfc4648

/-- Table 1 of RFC 4648, the base 64 alphabet: the values 0 to 25 are `A` to `Z`,
26 to 51 are `a` to `z`, 52 to 61 are `0` to `9`, 62 is `+` and 63 is `/`. -/
def alphabet (v : Nat) : UInt8 :=
  if v < 26 then UInt8.ofNat (65 + v)
  else if v < 52 then UInt8.ofNat (97 + (v - 26))
  else if v < 62 then UInt8.ofNat (48 + (v - 52))
  else if v = 62 then 43
  else 47

/-- Bit `i` of a byte, bit 7 being the most significant. -/
def bit (c : UInt8) (i : Nat) : Bool := c.toNat.testBit i

/-- The eight bits of a byte, most significant first. -/
def byteBits (c : UInt8) : List Bool :=
  [bit c 7, bit c 6, bit c 5, bit c 4, bit c 3, bit c 2, bit c 1, bit c 0]

/-- The number a list of bits denotes, most significant bit first. -/
def bitsVal (bs : List Bool) : Nat := bs.foldl (fun n b => 2 * n + b.toNat) 0

/-- The bit stream cut into groups of six bits; a last group of fewer than six
bits is filled with zero bits on the right. -/
def sextets : List Bool → List (List Bool)
  | b0 :: b1 :: b2 :: b3 :: b4 :: b5 :: rest => [b0, b1, b2, b3, b4, b5] :: sextets rest
  | [] => []
  | short => [short ++ List.replicate (6 - short.length) false]

/-- The alphabet characters of the encoding: one for each group of six bits of the
input bit stream. -/
def chars (b : List UInt8) : List UInt8 :=
  (sextets (b.flatMap byteBits)).map (fun g => alphabet (bitsVal g))

/-- The base 64 encoding of RFC 4648, section 4: the characters of the six-bit
groups, then `=` characters up to a multiple of four characters. -/
def encoding (b : List UInt8) : List UInt8 :=
  chars b ++ List.replicate ((4 - (chars b).length % 4) % 4) (61 : UInt8)

end rfc4648

/-! ## Lemmas on the helpers -/

theorem utf8_dquote : utf8 "\"" = [dquote] := by decide

theorem utf8_dquote2 : utf8 "\"\"" = [dquote, dquote] := by decide

theorem replaceAllAux_single (new : List UInt8) (q : UInt8) (l : List UInt8) :
    strings.replaceAllAux [q] new 0 l = l.flatMap (fun c => if c = q then new else [c]) := by
  induction l with
  | nil => rfl
  | cons c cs ih =>
    by_cases h : c = q
    · subst h
      simp [strings.replaceAllAux, ih, List.isPrefixOf]
    · have h2 : ¬ q = c := fun e => h e.symm
      simp [strings.replaceAllAux, ih, List.isPrefixOf, h, h2]

theorem strDoubleQuoted_bytes (s : GoString) :
    (strDoubleQuoted s).bytes = s.bytes.flatMap doubleByte := by
  simp only [strDoubleQuoted, strings.ReplaceAll, GoString.ofText, utf8_dquote, utf8_dquote2]
  rw [replaceAllAux_single]
  rfl

theorem count_flatMap_doubleByte (l : List UInt8) :
    (l.flatMap doubleByte).count dquote = 2 * l.count dquote := by
  induction l with
  | nil => rfl
  | cons c cs ih =>
    rw [List.flatMap_cons, List.count_append, ih]
    by_cases h : c = dquote
    · subst h
      simp [doubleByte]
      omega
    · have h2 : ¬ dquote = c := fun e => h e.symm
      simp [doubleByte, h, List.count_cons, h2]

theorem filter_flatMap_doubleByte (l : List UInt8) :
    (l.flatMap doubleByte).filter (fun c => c != dquote) = l.filter (fun c => c != dquote) := by
  induction l with
  | nil => rfl
  | cons c cs ih =>
    rw [List.flatMap_cons, List.filter_append, ih]
    by_cases h : c = dquote
    · subst h
      simp [doubleByte]
    · simp [doubleByte, h]

theorem undouble_flatMap_doubleByte (l : List UInt8) :
    strings.replaceAllAux [dquote, dquote] [dquote] 0 (l.flatMap doubleByte) = l := by
  induction l with
  | nil => rfl
  | cons c cs ih =>
    by_cases h : c = dquote
    · subst h
      rw [List.flatMap_cons]
      simp only [doubleByte, if_true, List.cons_append, List.nil_append]
      simp only [strings.replaceAllAux, List.isPrefixOf, beq_self_eq_true, Bool.and_self,
        if_true, List.length_cons, List.length_nil]
      simpa using ih
    · have h2 : ¬ dquote = c := fun e => h e.symm
      rw [List.flatMap_cons]
      simp only [doubleByte, h, if_false, List.cons_append, List.nil_append]
      simp only [strings.replaceAllAux, List.isPrefixOf, beq_iff_eq, h2, false_and,
        Bool.false_and, if_false]
      simp [h2, ih]

theorem Join_empty_sep (l : List GoString) :
    (strings.Join l ⟨[]⟩).bytes = (l.map GoString.bytes).flatten := by
  match l with
  | [] => rfl
  | [e] => simp [strings.Join]
  | e :: e2 :: rest =>
    simp [strings.Join, List.flatMap, List.flatten]

theorem base64_encode_alphabet (n : Nat) : base64.isAlphabet (base64.encode (n &&& 0x3F)) = true := by
  have h : n &&& 0x3F < 64 := Nat.lt_succ_of_le Nat.and_le_right
  generalize n &&& 0x3F = i at h
  have key : ∀ j : Fin 64, base64.isAlphabet (base64.encode j.val) = true := by decide
  exact key ⟨i, h⟩

theorem base64_Encode_shape (b : List UInt8) :
    (base64.Encode b).length = 4 * ((b.length + 2) / 3) ∧
    ∃ body : List UInt8,
      base64.Encode b = body ++ List.replicate (padCount b.length) base64.StdPadding ∧
      ∀ c ∈ body, base64.isAlphabet c = true := by
  induction b using base64.Encode.induct with
  | case1 a b c rest ih =>
    obtain ⟨hlen, body, hbody, hal⟩ := ih
    refine ⟨?_, ?_⟩
    · simp only [base64.Encode, List.length_cons, hlen]
      omega
    · refine ⟨(base64.Encode (a :: b :: c :: rest)).take 4 ++ body, ?_, ?_⟩
      · have hp : padCount (a :: b :: c :: rest).length = padCount rest.length := by
          simp only [padCount, List.length_cons]
          omega
        simp only [base64.Encode, hp, hbody, List.take_succ_cons, List.take_zero,
          List.cons_append, List.nil_append]
      · intro x hx
        simp only [base64.Encode, List.take_succ_cons, List.take_zero, List.cons_append,
          List.nil_append, List.mem_cons] at hx
        rcases hx with rfl | rfl | rfl | rfl | hx
        · exact base64_encode_alphabet _
        · exact base64_encode_alphabet _
        · exact base64_encode_alphabet _
        · exact base64_encode_alphabet _
        · exact hal x hx
  | case2 a b =>
    refine ⟨by simp [base64.Encode], (base64.Encode [a, b]).take 3, by simp [base64.Encode, padCount], ?_⟩
    intro x hx
    simp only [base64.Encode, List.take_succ_cons, List.take_zero, List.mem_cons,
      List.mem_singleton, List.not_mem_nil, or_false] at hx
    rcases hx with rfl | rfl | rfl <;> exact base64_encode_alphabet _
  | case3 a =>
    refine ⟨by simp [base64.Encode], (base64.Encode [a]).take 2, by simp [base64.Encode, padCount], ?_⟩
    intro x hx
    simp only [base64.Encode, List.take_succ_cons, List.take_zero, List.mem_cons,
      List.mem_singleton, List.not_mem_nil, or_false] at hx
    rcases hx with rfl | rfl <;> exact base64_encode_alphabet _
  | case4 =>
    exact ⟨rfl, [], rfl, fun _ h => absurd h (List.not_mem_nil _)⟩

/-- The test vectors of RFC 4648, section 10. -/
theorem base64_rfc4648_vectors :
    base64enc (utf8 "") = GoString.ofText "" ∧
    base64enc (utf8 "f") = GoString.ofText "Zg==" ∧
    base64enc (utf8 "fo") = GoString.ofText "Zm8=" ∧
    base64enc (utf8 "foo") = GoString.ofText "Zm9v" ∧
    base64enc (utf8 "foob") = GoString.ofText "Zm9vYg==" ∧
    base64enc (utf8 "fooba") = GoString.ofText "Zm9vYmE=" ∧
    base64enc (utf8 "foobar") = GoString.ofText "Zm9vYmFy" := by
  decide

/-! ## Lemmas relating Go's encoder to RFC 4648 -/

theorem encode_eq_alphabet : ∀ i : Fin 64, base64.encode i.val = rfc4648.alphabet i.val := by
  decide

theorem encode_eq_alphabet_of_lt (i : Nat) (h : i < 64) :
    base64.encode i = rfc4648.alphabet i := encode_eq_alphabet ⟨i, h⟩

theorem toNat_lt (a : UInt8) : a.toNat < 256 := a.val.isLt

theorem or3_eq_add (A B C : Nat) (hB : B < 256) (hC : C < 256) :
    (A <<< 16) ||| (B <<< 8) ||| C = A * 65536 + B * 256 + C := by
  have h1 : (A <<< 16) ||| (B <<< 8) = 2 ^ 16 * A + B <<< 8 := by
    rw [Nat.shiftLeft_eq A 16, Nat.mul_comm A (2 ^ 16)]
    refine (Nat.mul_add_lt_is_or ?_ A).symm
    rw [Nat.shiftLeft_eq]
    omega
  have h2 : 2 ^ 16 * A + B <<< 8 = 2 ^ 8 * (2 ^ 8 * A + B) := by
    rw [Nat.shiftLeft_eq]
    omega
  rw [h1, h2, ← Nat.mul_add_lt_is_or (by omega : C < 2 ^ 8)]
  omega

theorem or2_eq_add (A B : Nat) (hB : B < 256) :
    (A <<< 16) ||| (B <<< 8) = A * 65536 + B * 256 := by
  have := or3_eq_add A B 0 hB (by omega)
  simpa using this
/-- The index `(val >> k) & 0x3F` as arithmetic. -/
theorem index_eq (val k : Nat) : (val >>> k) &&& 0x3F = val / 2 ^ k % 64 := by
  rw [Nat.shiftRight_eq_div_pow]
  exact Nat.and_pow_two_sub_one_eq_mod _ 6

theorem index0_eq (val : Nat) : val &&& 0x3F = val % 64 :=
  Nat.and_pow_two_sub_one_eq_mod _ 6

theorem bitsVal_six (b5 b4 b3 b2 b1 b0 : Bool) :
    rfc4648.bitsVal [b5, b4, b3, b2, b1, b0]
      = 32 * b5.toNat + 16 * b4.toNat + 8 * b3.toNat + 4 * b2.toNat + 2 * b1.toNat + b0.toNat := by
  simp only [rfc4648.bitsVal, List.foldl]
  omega

theorem bit_toNat (c : UInt8) (i : Nat) : (rfc4648.bit c i).toNat = c.toNat / 2 ^ i % 2 :=
  Nat.toNat_testBit _ _

/-- The four characters of a full group of three bytes. -/
theorem quad_eq (a b c : UInt8) :
    let val := (a.toNat <<< 16) ||| (b.toNat <<< 8) ||| c.toNat
    [base64.encode ((val >>> 18) &&& 0x3F), base64.encode ((val >>> 12) &&& 0x3F),
      base64.encode ((val >>> 6) &&& 0x3F), base64.encode (val &&& 0x3F)]
    = (rfc4648.sextets (rfc4648.byteBits a ++ rfc4648.byteBits b ++ rfc4648.byteBits c)).map
        (fun g => rfc4648.alphabet (rfc4648.bitsVal g)) := by
  have ha := toNat_lt a
  have hb := toNat_lt b
  have hc := toNat_lt c
  simp only [or3_eq_add _ _ _ hb hc, index_eq, index0_eq, rfc4648.byteBits, List.cons_append,
    List.nil_append, rfc4648.sextets, List.map_cons, List.map_nil, bitsVal_six, bit_toNat]
  rw [encode_eq_alphabet_of_lt _ (Nat.mod_lt _ (by decide)),
    encode_eq_alphabet_of_lt _ (Nat.mod_lt _ (by decide)),
    encode_eq_alphabet_of_lt _ (Nat.mod_lt _ (by decide)),
    encode_eq_alphabet_of_lt _ (Nat.mod_lt _ (by decide))]
  simp only [List.cons.injEq, and_true]
  exact ⟨congrArg _ (by omega), congrArg _ (by omega), congrArg _ (by omega),
    congrArg _ (by omega)⟩

/-- The three characters of a last group of two bytes. -/
theorem triple_eq (a b : UInt8) :
    let val := (a.toNat <<< 16) ||| (b.toNat <<< 8)
    [base64.encode ((val >>> 18) &&& 0x3F), base64.encode ((val >>> 12) &&& 0x3F),
      base64.encode ((val >>> 6) &&& 0x3F)]
    = (rfc4648.sextets (rfc4648.byteBits a ++ rfc4648.byteBits b)).map
        (fun g => rfc4648.alphabet (rfc4648.bitsVal g)) := by
  have ha := toNat_lt a
  have hb := toNat_lt b
  simp only [or2_eq_add _ _ hb, index_eq, rfc4648.byteBits, List.cons_append,
    List.nil_append, rfc4648.sextets, List.map_cons, List.map_nil, List.length_cons,
    List.length_nil, List.replicate, bitsVal_six, bit_toNat, Bool.toNat_false]
  rw [encode_eq_alphabet_of_lt _ (Nat.mod_lt _ (by decide)),
    encode_eq_alphabet_of_lt _ (Nat.mod_lt _ (by decide)),
    encode_eq_alphabet_of_lt _ (Nat.mod_lt _ (by decide))]
  simp only [List.cons.injEq, and_true]
  exact ⟨congrArg _ (by omega), congrArg _ (by omega), congrArg _ (by omega)⟩

/-- The two characters of a last group of one byte. -/
theorem pair_eq (a : UInt8) :
    let val := a.toNat <<< 16
    [base64.encode ((val >>> 18) &&& 0x3F), base64.encode ((val >>> 12) &&& 0x3F)]
    = (rfc4648.sextets (rfc4648.byteBits a)).map
        (fun g => rfc4648.alphabet (rfc4648.bitsVal g)) := by
  have ha := toNat_lt a
  simp only [Nat.shiftLeft_eq, index_eq, rfc4648.byteBits, List.cons_append,
    List.nil_append, rfc4648.sextets, List.map_cons, List.map_nil, List.length_cons,
    List.length_nil, List.replicate, bitsVal_six, bit_toNat, Bool.toNat_false]
  rw [encode_eq_alphabet_of_lt _ (Nat.mod_lt _ (by decide)),
    encode_eq_alphabet_of_lt _ (Nat.mod_lt _ (by decide))]
  simp only [List.cons.injEq, and_true]
  exact ⟨congrArg _ (by omega), congrArg _ (by omega)⟩

theorem sextets_bytes3 (a b c : UInt8) (more : List Bool) :
    rfc4648.sextets (rfc4648.byteBits a ++ (rfc4648.byteBits b ++ (rfc4648.byteBits c ++ more)))
      = rfc4648.sextets (rfc4648.byteBits a ++ rfc4648.byteBits b ++ rfc4648.byteBits c)
        ++ rfc4648.sextets more := by
  cases more <;> simp [rfc4648.byteBits, rfc4648.sextets]

theorem chars_cons3 (a b c : UInt8) (rest : List UInt8) :
    rfc4648.chars (a :: b :: c :: rest)
      = (rfc4648.sextets (rfc4648.byteBits a ++ rfc4648.byteBits b ++ rfc4648.byteBits c)).map
          (fun g => rfc4648.alphabet (rfc4648.bitsVal g)) ++ rfc4648.chars rest := by
  simp only [rfc4648.chars, List.flatMap_cons, sextets_bytes3, List.map_append]

theorem chars_cons3_length (a b c : UInt8) (rest : List UInt8) :
    (rfc4648.chars (a :: b :: c :: rest)).length = 4 + (rfc4648.chars rest).length := by
  rw [chars_cons3, List.length_append, ← quad_eq]
  rfl

/-- Go's encoder computes the base 64 encoding of RFC 4648. -/
theorem Encode_eq_rfc4648 (b : List UInt8) : base64.Encode b = rfc4648.encoding b := by
  induction b using base64.Encode.induct with
  | case1 a b c rest ih =>
    have hq := quad_eq a b c
    simp only at hq
    have hlen := chars_cons3_length a b c rest
    have hpad : (4 - (rfc4648.chars (a :: b :: c :: rest)).length % 4) % 4
        = (4 - (rfc4648.chars rest).length % 4) % 4 := by
      rw [hlen]
      omega
    rw [rfc4648.encoding, hpad, chars_cons3, ← hq, List.append_assoc, ← rfc4648.encoding, ← ih]
    simp [base64.Encode]
  | case2 a b =>
    have ht := triple_eq a b
    simp only at ht
    have hc : rfc4648.chars [a, b]
        = (rfc4648.sextets (rfc4648.byteBits a ++ rfc4648.byteBits b)).map
          (fun g => rfc4648.alphabet (rfc4648.bitsVal g)) := by
      simp [rfc4648.chars]
    rw [rfc4648.encoding, hc, ← ht]
    simp [base64.Encode, base64.StdPadding]
  | case3 a =>
    have hp := pair_eq a
    simp only at hp
    have hc : rfc4648.chars [a]
        = (rfc4648.sextets (rfc4648.byteBits a)).map
          (fun g => rfc4648.alphabet (rfc4648.bitsVal g)) := by
      simp [rfc4648.chars]
    rw [rfc4648.encoding, hc, ← hp]
    simp [base64.Encode, base64.StdPadding]
  | case4 => rfl

theorem Write_len {σ : Type} (f : σ → List UInt8 → σ) (d : digest σ) (p : List UInt8) :
    (d.Write f p).len = (d.len + p.length) % 2 ^ 64 := by
  simp only [digest.Write]
  split_ifs <;> rfl

theorem Write_x_length {σ : Type} (f : σ → List UInt8 → σ) (d : digest σ) (p : List UInt8)
    (hx : d.x.length < 64) :
    (d.Write f p).x.length = (d.x.length + p.length) % 64 := by
  simp only [digest.Write]
  split_ifs <;> simp_all [List.length_take, List.length_drop] <;> omega


theorem New_Write_inv {σ : Type} (f : σ → List UInt8 → σ) (h : σ) (b : List UInt8) :
    ((⟨h, [], 0⟩ : digest σ).Write f b).x.length
      = ((⟨h, [], 0⟩ : digest σ).Write f b).len % 64 := by
  rw [Write_x_length f _ b (by simp), Write_len]
  simp only [List.length_nil]
  omega

theorem New_Write_len_lt {σ : Type} (f : σ → List UInt8 → σ) (h : σ) (b : List UInt8) :
    ((⟨h, [], 0⟩ : digest σ).Write f b).len < 2 ^ 64 := by
  rw [Write_len]
  omega

theorem md5_checkSum_length (d : digest md5.State) (hx : d.x.length = d.len % 64)
    (hlen : d.len < 2 ^ 64) :
    ∃ hash, md5.checkSum d = some hash ∧ hash.length = 16 := by
  simp only [md5.checkSum]
  rw [if_neg]
  · exact ⟨_, rfl, by simp [lePutUint32]⟩
  · rw [Write_x_length _ _ _ (by omega), hx]
    simp only [lePutUint64, List.length_append, List.length_cons, List.length_replicate,
      List.length_nil]
    omega

theorem sha1_checkSum_length (d : digest sha1.State) (hx : d.x.length = d.len % 64) :
    ∃ hash, sha1.checkSum d = some hash ∧ hash.length = 20 := by
  simp only [sha1.checkSum]
  rw [if_neg]
  · exact ⟨_, rfl, by simp [bePutUint32]⟩
  · rw [Write_x_length _ _ _ (by omega), hx]
    simp only [bePutUint64, List.length_append, List.length_cons, List.length_replicate,
      List.length_nil]
    split_ifs <;> omega

theorem sha256_checkSum_length (d : digest sha256.State) (hx : d.x.length = d.len % 64) :
    ∃ hash, sha256.checkSum d = some hash ∧ hash.length = 32 := by
  simp only [sha256.checkSum]
  rw [if_neg]
  · exact ⟨_, rfl, by simp [bePutUint32]⟩
  · rw [Write_x_length _ _ _ (by omega), hx]
    simp only [bePutUint64, List.length_append, List.length_cons, List.length_replicate,
      List.length_nil]
    split_ifs <;> omega

set_option maxRecDepth 100000 in
theorem md5_vectors :
    md5byte [] = some [0xd4, 0x1d, 0x8c, 0xd9, 0x8f, 0x00, 0xb2, 0x04, 0xe9, 0x80, 0x09, 0x98, 0xec, 0xf8, 0x42, 0x7e] ∧
    md5byte (utf8 "abc") = some [0x90, 0x01, 0x50, 0x98, 0x3c, 0xd2, 0x4f, 0xb0, 0xd6, 0x96, 0x3f, 0x7d, 0x28, 0xe1, 0x7f, 0x72] := by
  decide

set_option maxRecDepth 100000 in
theorem sha1_vectors :
    sha1byte [] = some [0xda, 0x39, 0xa3, 0xee, 0x5e, 0x6b, 0x4b, 0x0d, 0x32, 0x55, 0xbf, 0xef, 0x95, 0x60, 0x18, 0x90, 0xaf, 0xd8, 0x07, 0x09] ∧
    sha1byte (utf8 "abc") = some [0xa9, 0x99, 0x3e, 0x36, 0x47, 0x06, 0x81, 0x6a, 0xba, 0x3e, 0x25, 0x71, 0x78, 0x50, 0xc2, 0x6c, 0x9c, 0xd0, 0xd8, 0x9d] := by
  decide

set_option maxRecDepth 100000 in
theorem sha256_vectors :
    sha256byte [] = some [0xe3, 0xb0, 0xc4, 0x42, 0x98, 0xfc, 0x1c, 0x14, 0x9a, 0xfb, 0xf4, 0xc8, 0x99, 0x6f, 0xb9, 0x24, 0x27, 0xae, 0x41, 0xe4, 0x64, 0x9b, 0x93, 0x4c, 0xa4, 0x95, 0x99, 0x1b, 0x78, 0x52, 0xb8, 0x55] ∧
    sha256byte (utf8 "abc") = some [0xba, 0x78, 0x16, 0xbf, 0x8f, 0x01, 0xcf, 0xea, 0x41, 0x41, 0x40, 0xde, 0x5d, 0xae, 0x22, 0x23, 0xb0, 0x03, 0x61, 0xa3, 0x96, 0x17, 0x7a, 0x9c, 0xb4, 0x10, 0xff, 0x61, 0xf2, 0x00, 0x15, 0xad] := by
  decide

/-! ## Lemmas on the export driver -/

@[simp] theorem onErr_out {ρ : Type} (s : Run ρ) (err : Option String) (msg : String → LogEntry) :
    (s.onErr err msg).out = s.out := by
  cases err <;> rfl

@[simp] theorem onErr_execs {ρ : Type} (s : Run ρ) (err : Option String)
    (msg : String → LogEntry) : (s.onErr err msg).execs = s.execs := by
  cases err <;> rfl

@[simp] theorem onErr_exit {ρ : Type} (s : Run ρ) (err : Option String)
    (msg : String → LogEntry) : (s.onErr err msg).exit = s.exit := by
  cases err <;> rfl

@[simp] theorem onErr_log {ρ : Type} (s : Run ρ) (err : Option String) (msg : String → LogEntry) :
    (s.onErr err msg).log = s.log ++ (err.map msg).toList := by
  cases err <;> simp [Run.onErr, Run.Printf]

@[simp] theorem Execute_out {ρ : Type} (s : Run ρ) (rd : Rendered) (c : Exec ρ) :
    (s.Execute rd c).out = s.out ++ rd.written := rfl

@[simp] theorem Execute_execs {ρ : Type} (s : Run ρ) (rd : Rendered) (c : Exec ρ) :
    (s.Execute rd c).execs = s.execs ++ [c] := rfl

@[simp] theorem Execute_log {ρ : Type} (s : Run ρ) (rd : Rendered) (c : Exec ρ) :
    (s.Execute rd c).log = s.log := rfl

@[simp] theorem Execute_exit {ρ : Type} (s : Run ρ) (rd : Rendered) (c : Exec ρ) :
    (s.Execute rd c).exit = s.exit := rfl

theorem exportLoop_out {ρ : Type} (rTmpl : ρ → Rendered) (records : List (Fetched ρ)) (i : Nat)
    (s : Run ρ) :
    (exportLoop rTmpl records i s).out = s.out ++ rowsWritten rTmpl records := by
  induction records generalizing i s with
  | nil => simp [exportLoop, rowsWritten]
  | cons r rest ih =>
    simp only [exportLoop, ih, onErr_out, Execute_out]
    simp [rowsWritten]

theorem exportLoop_execs {ρ : Type} (rTmpl : ρ → Rendered) (records : List (Fetched ρ))
    (i : Nat) (s : Run ρ) :
    (exportLoop rTmpl records i s).execs
      = s.execs ++ records.map (fun r => Exec.row r.scanned) := by
  induction records generalizing i s with
  | nil => simp [exportLoop]
  | cons r rest ih =>
    simp only [exportLoop, ih, onErr_execs, Execute_execs]
    simp

theorem exportLoop_exit {ρ : Type} (rTmpl : ρ → Rendered) (records : List (Fetched ρ)) (i : Nat)
    (s : Run ρ) : (exportLoop rTmpl records i s).exit = s.exit := by
  induction records generalizing i s with
  | nil => rfl
  | cons r rest ih => simp only [exportLoop, ih, onErr_exit, Execute_exit]

theorem exportLoop_log {ρ : Type} (rTmpl : ρ → Rendered) (records : List (Fetched ρ)) (i : Nat)
    (s : Run ρ) : (exportLoop rTmpl records i s).log = s.log ++ loopLog rTmpl records i := by
  induction records generalizing i s with
  | nil => simp [exportLoop, loopLog]
  | cons r rest ih =>
    simp only [exportLoop, ih, onErr_log, Execute_log, loopLog, rowLog]
    simp

theorem loopLog_getElem {ρ : Type} (rTmpl : ρ → Rendered) (records : List (Fetched ρ))
    (i k : Nat) (r : Fetched ρ) (hk : records[k]? = some r) :
    ∀ x ∈ rowLog rTmpl (i + k + 1) r, x ∈ loopLog rTmpl records i := by
  induction records generalizing i k with
  | nil => simp at hk
  | cons r0 rest ih =>
    intro x hx
    cases k with
    | zero =>
      simp only [List.getElem?_cons_zero, Option.some.injEq] at hk
      subst hk
      simp only [loopLog, List.mem_append]
      exact Or.inl hx
    | succ k =>
      simp only [List.getElem?_cons_succ] at hk
      simp only [loopLog, List.mem_append]
      refine Or.inr (ih (i + 1) k hk x ?_)
      have e : i + 1 + k + 1 = i + (k + 1) + 1 := by omega
      rw [e]
      exact hx

theorem loopLog_of_ok {ρ : Type} (rTmpl : ρ → Rendered) (records : List (Fetched ρ)) (i : Nat)
    (hok : ∀ r ∈ records, r.scanErr = none ∧ (rTmpl r.scanned).err = none) :
    loopLog rTmpl records i = [] := by
  induction records generalizing i with
  | nil => rfl
  | cons r rest ih =>
    have h0 := hok r (List.mem_cons_self _ _)
    simp only [loopLog, rowLog, h0.1, h0.2, Option.map_none', Option.toList_none,
      List.nil_append]
    exact ih (i + 1) (fun r hr => hok r (List.mem_cons_of_mem _ hr))

/-- The run of `main` once every call before `res.Columns()` has succeeded: the
output, the template executions, and the lines logged up to the end of the
loop. -/
theorem main_of_setupOk {ρ : Type} (w : World ρ) (hTmpl : List String → Rendered)
    (rTmpl : ρ → Rendered) (hs : SetupOk w hTmpl rTmpl) :
    (main w).out = (hTmpl w.columns).written ++ rowsWritten rTmpl w.records ∧
    (main w).execs = Exec.header w.columns :: w.records.map (fun r => Exec.row r.scanned) ∧
    ∃ closing : List LogEntry,
      (main w).log = (w.closeSqlFile.map LogEntry.closeSqlFile).toList
        ++ (w.columnsErr.map LogEntry.getColumns).toList
        ++ ((hTmpl w.columns).err.map LogEntry.headerTemplate).toList
        ++ loopLog rTmpl w.records 0
        ++ closing := by
  obtain ⟨h1, h2, h3, h4, h5, h6, h7⟩ := hs
  unfold World.columns World.columnsErr World.records
  cases hcur : w.cursor with
  | rows columns records =>
    simp only [main, h1, h2, h3, h4, h5, h6, h7, hcur, onErr_out, onErr_execs, onErr_log,
      exportLoop_out, exportLoop_execs, exportLoop_log, Execute_out, Execute_execs,
      Execute_log, Cursor.columns, Cursor.columnsErr, Cursor.records]
    refine ⟨by simp, by simp, (w.resClose.map LogEntry.queryClose).toList
      ++ (w.dbClose.map LogEntry.closeDatabase).toList, by simp⟩
  | noRows err =>
    simp only [main, h1, h2, h3, h4, h5, h6, h7, hcur, onErr_out, onErr_execs, onErr_log,
      Execute_out, Execute_execs, Execute_log, Cursor.columns, Cursor.columnsErr,
      Cursor.records, Run.Panic]
    refine ⟨by simp [rowsWritten], by simp, (w.dbClose.map LogEntry.closeDatabase).toList,
      by simp [loopLog]⟩

/-- The run of `main` when the driver handed back its rows: the lines logged and
the exit status. -/
theorem main_of_rows {ρ : Type} (w : World ρ) (hTmpl : List String → Rendered)
    (rTmpl : ρ → Rendered) (hs : SetupOk w hTmpl rTmpl) (hc : w.columnsErr = none) :
    (main w).exit = 0 ∧
    (main w).log = (w.closeSqlFile.map LogEntry.closeSqlFile).toList
      ++ ((hTmpl w.columns).err.map LogEntry.headerTemplate).toList
      ++ loopLog rTmpl w.records 0
      ++ (w.resClose.map LogEntry.queryClose).toList
      ++ (w.dbClose.map LogEntry.closeDatabase).toList := by
  obtain ⟨h1, h2, h3, h4, h5, h6, h7⟩ := hs
  unfold World.columns World.records
  unfold World.columnsErr at hc
  cases hcur : w.cursor with
  | rows columns records =>
    simp only [main, h1, h2, h3, h4, h5, h6, h7, hcur, onErr_exit, onErr_log,
      exportLoop_exit, exportLoop_log, Execute_exit, Execute_log, Cursor.columns,
      Cursor.columnsErr, Cursor.records]
    simp
  | noRows err =>
    rw [hcur] at hc
    simp [Cursor.columnsErr] at hc

/-- A cursor that delivers a record returned its columns without an error. -/
theorem columnsErr_of_records {ρ : Type} (w : World ρ) (h : w.records ≠ []) :
    w.columnsErr = none := by
  unfold World.records at h
  unfold World.columnsErr
  cases hcur : w.cursor with
  | rows columns records => rfl
  | noRows err =>
    rw [hcur] at h
    exact absurd rfl h

/-- The run of `main` when the driver handed back no rows. -/
theorem main_of_noRows {ρ : Type} (w : World ρ) (hTmpl : List String → Rendered)
    (rTmpl : ρ → Rendered) (hs : SetupOk w hTmpl rTmpl) (err : String)
    (hc : w.cursor = Cursor.noRows err) :
    (main w).out = (hTmpl []).written ∧ (main w).execs = [Exec.header []] ∧
    (main w).exit = 2 ∧ LogEntry.getColumns err ∈ (main w).log := by
  obtain ⟨h1, h2, h3, h4, h5, h6, h7⟩ := hs
  simp only [main, h1, h2, h3, h4, h5, h6, h7, hc, onErr_out, onErr_execs, onErr_exit,
    onErr_log, Execute_out, Execute_execs, Execute_exit, Execute_log, Cursor.columns,
    Cursor.columnsErr, Run.Panic]
  simp

/-- The run of `main` when a call it answers with `log.Fatalf` fails. -/
theorem main_of_setupFails {ρ : Type} (w : World ρ) (hf : SetupFails w) :
    (main w).out = [] ∧ (main w).execs = [] ∧ (main w).exit = 1 := by
  unfold main
  rcases hc : w.decodeConfig with _ | e
  · rcases ho : w.openSqlFile with _ | e
    · rcases hr : w.readSqlFile with _ | e
      · rcases hh : w.parseHeader with e | hT
        · simp [Run.Fatalf]
        · rcases hp : w.parseRow with e | rT
          · simp [Run.Fatalf]
          · rcases hx : w.sqlxOpen with _ | e
            · rcases hq : w.queryx with _ | e
              · exfalso
                rcases hf with h | h | h | ⟨e, h⟩ | ⟨e, h⟩ | h | h
                · exact h hc
                · exact h ho
                · exact h hr
                · rw [hh] at h; cases h
                · rw [hp] at h; cases h
                · exact h hx
                · exact h hq
              · simp [Run.Fatalf]
            · simp [Run.Fatalf]
      · simp [Run.Fatalf]
    · simp [Run.Fatalf]
  · simp [Run.Fatalf]

theorem exampleWorld_setupOk (header row : List Node) (cursor : Cursor Row) :
    SetupOk (exampleWorld header row cursor) (executeHeader header) (executeRow row) :=
  ⟨rfl, rfl, rfl, rfl, rfl, rfl, rfl⟩

theorem rowParseFailWorld_setupFails : SetupFails rowParseFailWorld :=
  Or.inr (Or.inr (Or.inr (Or.inr (Or.inl ⟨_, rfl⟩))))

/-! ## Theorems on the helpers -/

/-- C5: `strDoubleQuoted` replaces each double-quote byte by two and leaves every
other byte as it is, so for every string the number of double quotes in the
result is twice the number in the input, the other bytes are the same in the same
order (no surrounding quotes are added), the empty text maps to the empty text and
`a"b` maps to `a""b`. -/
theorem strDoubleQuoted_doubles_quotes :
    (∀ T : GoString,
      (strDoubleQuoted T).bytes = T.bytes.flatMap doubleByte ∧
      (strDoubleQuoted T).bytes.count dquote = 2 * T.bytes.count dquote ∧
      (strDoubleQuoted T).bytes.filter (fun c => c != dquote)
        = T.bytes.filter (fun c => c != dquote)) ∧
    strDoubleQuoted (GoString.ofText "") = GoString.ofText "" ∧
    strDoubleQuoted (GoString.ofText "a\"b") = GoString.ofText "a\"\"b" := by
  refine ⟨fun T => ⟨strDoubleQuoted_bytes T, ?_, ?_⟩, by decide, by decide⟩
  · rw [strDoubleQuoted_bytes, count_flatMap_doubleByte]
  · rw [strDoubleQuoted_bytes, filter_flatMap_doubleByte]

/-- C6: round trip: converting a string to a byte slice and back gives the same
string, for every Go string and so for every valid text. -/
theorem byteToStr_strToByte :
    (∀ s : GoString, byteToStr (strToByte s) = s) ∧
    (∀ t : String, byteToStr (strToByte (GoString.ofText t)) = GoString.ofText t) :=
  ⟨fun _ => rfl, fun _ => rfl⟩

/-- C7: `strJoin` returns the concatenation of its arguments in argument order with
no separator; with no argument it returns the empty text, and
`strJoin("a","b","c")` is `"abc"`. -/
theorem strJoin_concat :
    (∀ s : List GoString, (strJoin s).bytes = (s.map GoString.bytes).flatten) ∧
    strJoin [] = GoString.ofText "" ∧
    strJoin [GoString.ofText "a", GoString.ofText "b", GoString.ofText "c"]
      = GoString.ofText "abc" := by
  refine ⟨fun s => ?_, by decide, by decide⟩
  exact Join_empty_sep s

/-- C10: `strDoubleQuoted` loses no information: replacing, left to right, every
non-overlapping pair of double quotes in `strDoubleQuoted s` by one double quote
gives `s` back, and so `strDoubleQuoted` is injective. -/
theorem strDoubleQuoted_injective :
    (∀ s : GoString,
      strings.ReplaceAll (strDoubleQuoted s) (GoString.ofText "\"\"") (GoString.ofText "\"") = s) ∧
    (∀ s t : GoString, strDoubleQuoted s = strDoubleQuoted t → s = t) := by
  have key : ∀ s : GoString,
      strings.ReplaceAll (strDoubleQuoted s) (GoString.ofText "\"\"") (GoString.ofText "\"") = s := by
    intro s
    cases s with
    | mk b =>
      simp only [strings.ReplaceAll, GoString.ofText, utf8_dquote, utf8_dquote2,
        strDoubleQuoted_bytes, undouble_flatMap_doubleByte]
  refine ⟨key, fun s t h => ?_⟩
  have hs := key s
  rw [h, key t] at hs
  exact hs.symm

/-- C10 on two spellings of `a"b`: their images under `strDoubleQuoted` are
equal, and so are they. -/
theorem strDoubleQuoted_injective_witness :
    strDoubleQuoted (GoString.ofText "a\"b") = strDoubleQuoted ⟨[97, 34, 98]⟩ ∧
    GoString.ofText "a\"b" = ⟨[97, 34, 98]⟩ :=
  ⟨by decide, strDoubleQuoted_injective.2 _ _ (by decide)⟩

/-- C8: for every byte sequence `b` of length `n`, `base64enc b` is the base 64
encoding of `b` that RFC 4648 defines (the bits of `b` taken six at a time, each
group mapped through the standard alphabet, padded with `=` to a multiple of four
characters); its length is `4 * ceil(n / 3)`; it consists of bytes of the standard
alphabet (`A`-`Z`, `a`-`z`, `0`-`9`, `+`, `/`) followed by `(3 - n % 3) % 3`, so at
most two, padding bytes `=`; and `base64enc(strToByte("hi"))` is `aGk=`. -/
theorem base64enc_standard_padded :
    (∀ b : ByteSlice,
      (base64enc b).bytes = rfc4648.encoding b ∧
      (base64enc b).bytes.length = 4 * ((b.length + 2) / 3) ∧
      ∃ (body : List UInt8) (k : Nat),
        (base64enc b).bytes = body ++ List.replicate k base64.StdPadding ∧
        k = (3 - b.length % 3) % 3 ∧ k ≤ 2 ∧
        ∀ c ∈ body, base64.isAlphabet c = true) ∧
    base64enc (strToByte (GoString.ofText "hi")) = GoString.ofText "aGk=" := by
  refine ⟨fun b => ⟨Encode_eq_rfc4648 b, ?_⟩, by decide⟩
  obtain ⟨hlen, body, hbody, hal⟩ := base64_Encode_shape b
  refine ⟨hlen, body, padCount b.length, hbody, rfl, ?_, hal⟩
  simp only [padCount]
  omega

/-! ## Theorems on the digests -/

/-- C9: for every input, the empty one included, `md5byte`, `sha1byte` and
`sha256byte` return (they do not panic) a digest of exactly 16, 20 and 32 bytes;
the digests are raw bytes, as those of the empty input show. -/
theorem hash_digest_lengths :
    (∀ b : ByteSlice,
      (∃ d, md5byte b = some d ∧ d.length = 16) ∧
      (∃ d, sha1byte b = some d ∧ d.length = 20) ∧
      (∃ d, sha256byte b = some d ∧ d.length = 32)) ∧
    md5byte [] = some [0xd4, 0x1d, 0x8c, 0xd9, 0x8f, 0x00, 0xb2, 0x04, 0xe9, 0x80, 0x09, 0x98,
      0xec, 0xf8, 0x42, 0x7e] ∧
    sha1byte [] = some [0xda, 0x39, 0xa3, 0xee, 0x5e, 0x6b, 0x4b, 0x0d, 0x32, 0x55, 0xbf, 0xef,
      0x95, 0x60, 0x18, 0x90, 0xaf, 0xd8, 0x07, 0x09] ∧
    sha256byte [] = some [0xe3, 0xb0, 0xc4, 0x42, 0x98, 0xfc, 0x1c, 0x14, 0x9a, 0xfb, 0xf4,
      0xc8, 0x99, 0x6f, 0xb9, 0x24, 0x27, 0xae, 0x41, 0xe4, 0x64, 0x9b, 0x93, 0x4c, 0xa4, 0x95,
      0x99, 0x1b, 0x78, 0x52, 0xb8, 0x55] := by
  refine ⟨fun b => ⟨?_, ?_, ?_⟩, md5_vectors.1, sha1_vectors.1, sha256_vectors.1⟩
  · obtain ⟨hash, h1, h2⟩ := md5_checkSum_length _ (New_Write_inv md5.block1 md5.init b)
      (New_Write_len_lt md5.block1 md5.init b)
    exact ⟨hash, by simp [md5byte, md5.Sum, md5.New, h1], h2⟩
  · obtain ⟨hash, h1, h2⟩ := sha1_checkSum_length _ (New_Write_inv sha1.block1 sha1.init b)
    exact ⟨hash, by simp [sha1byte, sha1.Sum, sha1.New, h1], h2⟩
  · obtain ⟨hash, h1, h2⟩ :=
      sha256_checkSum_length _ (New_Write_inv sha256.block1 sha256.init b)
    exact ⟨hash, by simp [sha256byte, sha256.Sum, sha256.New, h1], h2⟩

/-! ## Theorems on the export driver -/

/-- C1, as the claim states it, fails: with three records of which the second
fails to scan, the row template is still executed for the second record, on the
empty map the failed scan left, and its output stands between the renderings of
the first and the third record; the output is not the header followed by the
renderings of the records that scanned. -/
theorem scan_failure_skipped_counterexample :
    (main scanFailWorld).out = utf8 "id,name\n1,a\n<no value>,<no value>\n3,c\n" ∧
    (main scanFailWorld).out ≠
      (executeHeader specHeader scanFailWorld.columns).written
        ++ rowsWritten (executeRow specRow)
            (scanFailWorld.records.filter (fun r => r.scanErr.isNone)) ∧
    (main scanFailWorld).execs.count (Exec.row []) = 1 := by
  decide

/-- C1, amended: a record whose scan fails is not skipped.  Once the setup has
succeeded, the output is what the header template wrote followed by what the row
template wrote for every fetched record, in cursor order, the row template being
executed for each record on the map as the scan left it, whether the scan failed
or not; a scan failure writes nothing itself and is logged with the ordinal of the
record. -/
theorem scan_failure_logged_and_rendered {ρ : Type} (w : World ρ)
    (hTmpl : List String → Rendered) (rTmpl : ρ → Rendered) (hs : SetupOk w hTmpl rTmpl) :
    (main w).out = (hTmpl w.columns).written
      ++ (w.records.map (fun r => (rTmpl r.scanned).written)).flatten ∧
    (main w).execs = Exec.header w.columns :: w.records.map (fun r => Exec.row r.scanned) ∧
    ∀ (k : Nat) (r : Fetched ρ) (e : String), w.records[k]? = some r → r.scanErr = some e →
      LogEntry.scanRow (k + 1) e ∈ (main w).log := by
  obtain ⟨hout, hexecs, closing, hlog⟩ := main_of_setupOk w hTmpl rTmpl hs
  refine ⟨hout, hexecs, fun k r e hk he => ?_⟩
  have hmem := loopLog_getElem rTmpl w.records 0 k r hk (LogEntry.scanRow (0 + k + 1) e)
    (by simp [rowLog, he])
  rw [hlog]
  simp only [List.mem_append]
  rw [Nat.zero_add] at hmem
  exact Or.inl (Or.inr hmem)

/-- The amended C1 on the three records of which the second fails to scan. -/
theorem scan_failure_logged_and_rendered_witness :
    SetupOk scanFailWorld (executeHeader specHeader) (executeRow specRow) ∧
    (main scanFailWorld).execs =
      [Exec.header ["id", "name"],
       Exec.row [("id", Scalar.int 1), ("name", Scalar.text "a")],
       Exec.row [],
       Exec.row [("id", Scalar.int 3), ("name", Scalar.text "c")]] ∧
    LogEntry.scanRow 2 "sql: Scan error on column index 0" ∈ (main scanFailWorld).log :=
  ⟨exampleWorld_setupOk _ _ _,
   (scan_failure_logged_and_rendered scanFailWorld _ _ (exampleWorld_setupOk _ _ _)).2.1,
   (scan_failure_logged_and_rendered scanFailWorld _ _ (exampleWorld_setupOk _ _ _)).2.2
     1 _ _ rfl rfl⟩

/-- C2, the code where the claim fails.  A failure of a call that `main` answers
with `log.Fatalf` (configuration, query file, either template, database, query)
aborts the run before any output: nothing is written, no template is executed,
the exit status is 1.  A failure of `res.Columns()` does not: on the run in which
the driver handed back no rows, `main` logs the error, executes the header
template on the empty column list, writes its output `id,name`, and then panics in
`res.Next()`, exit status 2. -/
theorem columns_failure_renders_header_then_panics :
    (∀ w : World Row, SetupFails w →
      (main w).out = [] ∧ (main w).execs = [] ∧ (main w).exit = 1) ∧
    SetupOk columnsFailWorld (executeHeader [Node.text "id,name\n"]) (executeRow specRow) ∧
    columnsFailWorld.columnsErr = some "sql: no Rows available" ∧
    (main columnsFailWorld).log = [LogEntry.getColumns "sql: no Rows available"] ∧
    (main columnsFailWorld).execs = [Exec.header []] ∧
    (main columnsFailWorld).out = utf8 "id,name\n" ∧
    (main columnsFailWorld).out ≠ [] ∧
    (main columnsFailWorld).exit = 2 :=
  ⟨fun w hf => main_of_setupFails w hf, exampleWorld_setupOk _ _ _, by decide, by decide,
    by decide, by decide, by decide, by decide⟩

/-- C3: when the setup, the column list, every scan and every render succeed, the
bytes `main` writes to the output are exactly the header template rendered once
on the column list, followed by the row template rendered on the map of each
record, one rendering for each record in cursor order (the header rendering alone
when there is no record); nothing is logged but a failure to close a file, the
cursor or the connection, and the exit status is 0. -/
theorem main_output_header_then_rows {ρ : Type} (w : World ρ)
    (hTmpl : List String → Rendered) (rTmpl : ρ → Rendered) (hs : SetupOk w hTmpl rTmpl)
    (hc : w.columnsErr = none) (hh : (hTmpl w.columns).err = none)
    (hr : ∀ r ∈ w.records, r.scanErr = none ∧ (rTmpl r.scanned).err = none) :
    (main w).out = (hTmpl w.columns).written
      ++ (w.records.map (fun r => (rTmpl r.scanned).written)).flatten ∧
    (main w).execs = Exec.header w.columns :: w.records.map (fun r => Exec.row r.scanned) ∧
    (w.records = [] → (main w).out = (hTmpl w.columns).written) ∧
    (main w).log = (w.closeSqlFile.map LogEntry.closeSqlFile).toList
      ++ (w.resClose.map LogEntry.queryClose).toList
      ++ (w.dbClose.map LogEntry.closeDatabase).toList ∧
    (main w).exit = 0 := by
  obtain ⟨hout, hexecs, _, _⟩ := main_of_setupOk w hTmpl rTmpl hs
  obtain ⟨hexit, hlog⟩ := main_of_rows w hTmpl rTmpl hs hc
  refine ⟨hout, hexecs, fun h0 => ?_, ?_, hexit⟩
  · rw [hout, h0]
    simp [rowsWritten]
  · rw [hlog, hh, loopLog_of_ok rTmpl w.records 0 hr]
    simp

/-- C3 on the end-to-end example: the output is `id,name`, `1,a`, `2,b`, each
followed by a newline. -/
theorem main_output_header_then_rows_witness :
    (main specWorld).out = utf8 "id,name\n1,a\n2,b\n" :=
  (main_output_header_then_rows specWorld (executeHeader specHeader) (executeRow specRow)
    (exampleWorld_setupOk _ _ _) rfl (by decide) (by decide)).1.trans (by decide)

/-- C4: a row-render failure does not halt the export loop.  When rendering the
record at position `k` (the one after `pre`) fails, the row template is still
executed for every record, those after `k` included, and what it writes for each
later record follows in cursor order what was written up to and including the
failing record; the failure is logged with the ordinal of the record and the exit
status is 0. -/
theorem render_failure_continues {ρ : Type} (w : World ρ)
    (hTmpl : List String → Rendered) (rTmpl : ρ → Rendered) (pre post : List (Fetched ρ))
    (rk : Fetched ρ) (e : String) (hs : SetupOk w hTmpl rTmpl)
    (hrec : w.records = pre ++ rk :: post) (hfail : (rTmpl rk.scanned).err = some e) :
    (main w).execs = Exec.header w.columns
      :: (pre.map (fun r => Exec.row r.scanned)
          ++ Exec.row rk.scanned :: post.map (fun r => Exec.row r.scanned)) ∧
    (main w).out = (hTmpl w.columns).written
      ++ (pre.map (fun r => (rTmpl r.scanned).written)).flatten
      ++ (rTmpl rk.scanned).written
      ++ (post.map (fun r => (rTmpl r.scanned).written)).flatten ∧
    LogEntry.rowTemplate (pre.length + 1) e ∈ (main w).log ∧
    (main w).exit = 0 := by
  obtain ⟨hout, hexecs, closing, hlog⟩ := main_of_setupOk w hTmpl rTmpl hs
  have hc : w.columnsErr = none := columnsErr_of_records w (by rw [hrec]; simp)
  refine ⟨?_, ?_, ?_, (main_of_rows w hTmpl rTmpl hs hc).1⟩
  · rw [hexecs, hrec]
    simp
  · rw [hout, hrec]
    simp [rowsWritten]
  · have hk : w.records[pre.length]? = some rk := by
      rw [hrec, List.getElem?_append_right (Nat.le_refl _)]
      simp
    have hmem := loopLog_getElem rTmpl w.records 0 pre.length rk hk
      (LogEntry.rowTemplate (0 + pre.length + 1) e) (by simp [rowLog, hfail])
    rw [hlog]
    simp only [List.mem_append]
    rw [Nat.zero_add] at hmem
    exact Or.inl (Or.inr hmem)

/-- C4 on three records of which the second fails to render after writing `2,`:
the third record is rendered in full after it. -/
theorem render_failure_continues_witness :
    (main renderFailWorld).out = utf8 "id,name\n1,a\n2,3,c\"\"d\n" :=
  (render_failure_continues renderFailWorld (executeHeader specHeader) (executeRow quotingRow)
    [⟨[("id", Scalar.int 1), ("name", Scalar.text "a")], none⟩]
    [⟨[("id", Scalar.int 3), ("name", Scalar.text "c\"d")], none⟩]
    ⟨[("id", Scalar.int 2), ("name", Scalar.int 7)], none⟩
    "wrong type for value; expected string; got int64"
    (exampleWorld_setupOk _ _ _) rfl (by decide)).2.1.trans (by decide)

end SqlTmplExport
